import Mathlib

/-!
# View Engine verification

A shallow embedding of the Baserow View Engine slice: the filter helper
functions of `field_filters.py` (embedded directly from the source), and the
View Engine operations (apply_filters, apply_sorting, the public-visibility
row checker, the view materialization index manager and view duplication),
modelled from the specification where the implementation files are not part
of the provided sources.
-/

namespace ViewEngine

/-! ## Cell values and rows -/

/-- A typed cell value of a row. `num none` is a SQL NULL in a number column,
`files` is the list of visible file names stored in a file column. -/
inductive CellValue where
  | text : String → CellValue
  | num : Option Int → CellValue
  | boolean : Bool → CellValue
  | files : List String → CellValue
deriving DecidableEq, Repr

/-- A table row: stable id, the manual fractional order key, and the mapping
from field id to cell value. -/
structure Row where
  id : Nat
  order : ℚ
  values : List (Nat × CellValue)
deriving DecidableEq, Repr

/-- Look up the value of a field in a row (none when the row has no cell for
that field id). -/
def Row.getValue (row : Row) (fieldId : Nat) : Option CellValue :=
  (row.values.find? (fun p => p.fst = fieldId)).map (fun p => p.snd)

/-! ## Case-insensitive substring matching

Helper semantics for the `icontains` / `ILIKE`-style operators of the
source's filter functions. -/

/-- Case-insensitive character list equality helper: lower-case a string's
characters. -/
def lowerChars (s : String) : List Char :=
  s.data.map Char.toLower

/-- Python's `str.strip()`: remove leading and trailing whitespace. -/
def strip (s : String) : String :=
  ⟨((s.data.dropWhile Char.isWhitespace).reverse.dropWhile Char.isWhitespace).reverse⟩

/-- `containsSub hay needle` holds when `needle` occurs as a contiguous
substring of `hay` (both taken as character lists). -/
def containsSub (hay needle : List Char) : Bool :=
  (List.range (hay.length + 1)).any (fun i => needle.isPrefixOf (hay.drop i))

/-- Case-insensitive substring test on strings. -/
def icontainsStr (hay needle : String) : Bool :=
  containsSub (lowerChars hay) (lowerChars needle)

/-- Split a string into its maximal alphanumeric words, lower-cased; used for
the `\m...\M` whole-word regex semantics of `contains_word`. -/
def lowerWords (s : String) : List (List Char) :=
  ((lowerChars s).splitOnP (fun c => !c.isAlphanum)).filter (fun w => w ≠ [])

/-! ## Embedding of `field_filters.py`

The following definitions embed the source file
`src/backend/src/baserow/contrib/database/fields/field_filters.py`.
Django `Q` objects are represented by a small expression type whose
constructors are exactly the `Q` shapes that file builds, together with the
combination behaviour of Django's `Q._combine` (an empty `Q()` is the
identity for both `&` and `|`). -/

/-- The shapes of Django `Q` objects built in `field_filters.py`:
`Q()` (the empty, match-all filter), `Q(field__icontains=value)`,
`Q(field__iregex=\m value \M)` and a `{key: True}` lookup against a
previously annotated boolean column. -/
inductive DjangoQ where
  | all : DjangoQ
  | icontains (fieldName value : String) : DjangoQ
  | iregexWord (fieldName value : String) : DjangoQ
  | annotKeyTrue (key : String) : DjangoQ
  | qand : DjangoQ → DjangoQ → DjangoQ
  | qor : DjangoQ → DjangoQ → DjangoQ
  | qnot : DjangoQ → DjangoQ
deriving DecidableEq, Repr

/-- The derived-column expressions annotated by `field_filters.py`:
`FileNameContainsExpr(F(field), Value(pattern))`, a boolean column saying
whether some visible file name of the field matches the `%...%` pattern. -/
inductive AnnotationExpr where
  | fileNameContains (fieldName : String) (pattern : String) : AnnotationExpr
deriving DecidableEq, Repr

/-- `AnnotatedQ`: a dictionary of annotations (annotation key to derived
expression) together with a `Q` object over those keys, as in the source
class of the same name. -/
structure AnnotatedQ where
  annots : List (String × AnnotationExpr)
  q : DjangoQ
deriving DecidableEq, Repr

/-- `OptionallyAnnotatedQ = Union[Q, AnnotatedQ]` from the source. -/
inductive OptionallyAnnotatedQ where
  | plain : DjangoQ → OptionallyAnnotatedQ
  | annotated : AnnotatedQ → OptionallyAnnotatedQ
deriving DecidableEq, Repr

/-- A row addressed by database column name, as the compiled Django filters
see it (`field_{id}` names); `get` returns the column's cell value. -/
def NamedRow := List (String × CellValue)

/-- Column lookup on a named row; a missing column reads as empty text. -/
def NamedRow.get (row : NamedRow) (name : String) : CellValue :=
  ((row.find? (fun p => p.fst = name)).map (fun p => p.snd)).getD (.text "")

/-- Text content of a cell for the string operators (non-text cells read as
the empty string, matching `::text`-free string lookups). -/
def CellValue.asText : CellValue → String
  | .text s => s
  | _ => ""

/-- File names of a cell for the file operators. -/
def CellValue.asFiles : CellValue → List String
  | .files fs => fs
  | _ => []

/-- Evaluate an annotated derived expression on a row: the
`FileNameContainsExpr` is a `LIKE %value%` match over the field's visible
file names. The stored pattern is `"%" ++ value ++ "%"`; its semantics is a
substring test on the value with the wrapping percent signs removed. -/
def evalAnnotationExpr (row : NamedRow) : AnnotationExpr → Bool
  | .fileNameContains fieldName pattern =>
      let needle := pattern.data.filter (fun c => c ≠ '%')
      ((row.get fieldName).asFiles).any (fun name => containsSub name.data needle)

/-- Evaluate a `Q` object on a row, given the row's computed annotations.
`Q()` matches everything; `icontains` is a case-insensitive substring test;
`iregexWord` with a `\m...\M` wrapped value matches when the value equals a
whole word of the text; an annotation-key lookup reads the computed
annotation column. -/
def evalDjangoQ (annVals : List (String × Bool)) (row : NamedRow) : DjangoQ → Bool
  | .all => true
  | .icontains fieldName value => icontainsStr ((row.get fieldName).asText) value
  | .iregexWord fieldName value => (lowerWords ((row.get fieldName).asText)).any
      (fun w => w = lowerChars value)
  | .annotKeyTrue key => (((annVals.find? (fun p => p.fst = key)).map
      (fun p => p.snd)).getD false) = true
  | .qand a b => evalDjangoQ annVals row a && evalDjangoQ annVals row b
  | .qor a b => evalDjangoQ annVals row a || evalDjangoQ annVals row b
  | .qnot a => !evalDjangoQ annVals row a

/-- Evaluate an `OptionallyAnnotatedQ` on a row: compute the annotations
first (as `Queryset.annotate` would), then the `Q`. -/
def evalOptQ (row : NamedRow) : OptionallyAnnotatedQ → Bool
  | .plain q => evalDjangoQ [] row q
  | .annotated aq =>
      evalDjangoQ (aq.annots.map (fun p => (p.fst, evalAnnotationExpr row p.snd))) row aq.q

/-- `contains_filter` from `field_filters.py`: strip the value; an empty
value yields `Q()` (no filtering at all); otherwise a case-insensitive
contains lookup on the field. -/
def contains_filter (fieldName value : String) : OptionallyAnnotatedQ :=
  let value := strip value
  if value = "" then .plain .all
  else .plain (.icontains fieldName value)

/-- `contains_word_filter` from `field_filters.py`: strip the value; an
empty value yields `Q()`; otherwise an `iregex` whole-word lookup with the
escaped value wrapped in word boundaries. -/
def contains_word_filter (fieldName value : String) : OptionallyAnnotatedQ :=
  let value := strip value
  if value = "" then .plain .all
  else .plain (.iregexWord fieldName value)

/-- `filename_contains_filter` from `field_filters.py`: strip the value; an
empty value yields `Q()`; otherwise annotate a `FileNameContainsExpr`
boolean column for the field and filter on that column being true. -/
def filename_contains_filter (fieldName value : String) : OptionallyAnnotatedQ :=
  let value := strip value
  if value = "" then .plain .all
  else .annotated
    { annots := [(fieldName ++ "_matches_visible_names",
        .fileNameContains fieldName ("%" ++ value ++ "%"))],
      q := .annotKeyTrue (fieldName ++ "_matches_visible_names") }

/-! ## View configuration entities

Modelled from the spec: the View Engine implementation modules (ViewHandler,
ViewIndexingHandler, the public row checker) are not among the provided
source files, only their tests are; the entities below follow §3 of the
specification and the shapes exercised by `test_view_handler.py`. -/

/-- A field of a table: stable numeric id and a mutable type tag. -/
structure Field where
  id : Nat
  fieldType : String
deriving DecidableEq, Repr

/-- A view filter: references one field, has an operator type name and a raw
string value. -/
structure ViewFilter where
  id : Nat
  fieldId : Nat
  type : String
  value : String
deriving DecidableEq, Repr

/-- A view sort: references one field with a direction `"ASC"` or `"DESC"`. -/
structure ViewSort where
  id : Nat
  fieldId : Nat
  order : String
deriving DecidableEq, Repr

/-- Per (view, field) display metadata. -/
structure FieldOption where
  fieldId : Nat
  hidden : Bool
  aggregationType : String
deriving DecidableEq, Repr

/-- A view decoration with its value provider configuration (kept opaque). -/
structure ViewDecoration where
  id : Nat
  valueProviderConf : String
deriving DecidableEq, Repr

/-- A view: variant kind tag (`"grid"`, `"form"`, ...), name, position,
public-sharing flag, filter combination mode (`"AND"`/`"OR"`), the
filters-disabled flag, its filters/sorts/decorations/field options, and the
denormalized nullable pointer to its current materialized index name. -/
structure View where
  id : Nat
  tableId : Nat
  viewType : String
  name : String
  order : Nat
  public : Bool
  filterType : String
  filtersDisabled : Bool
  filters : List ViewFilter
  sorts : List ViewSort
  decorations : List ViewDecoration
  fieldOptions : List FieldOption
  dbIndexName : Option String
deriving DecidableEq, Repr

/-! ## Filter predicate engine

Modelled from the spec: `compile(view) -> Predicate` / `apply` of §4.2. The
per-operator leaf predicates cover the operators exercised by the tests
(`equal`, `not_equal`, `empty`, `not_empty`, `contains`); `contains` follows
the embedded `contains_filter` semantics (empty value matches everything). -/

/-- String rendering used to compare a raw filter value against a cell, as
the `equal` operator family does after value preparation. -/
def cellEqString (c : Option CellValue) (v : String) : Bool :=
  match c with
  | some (.text s) => s = v
  | some (.num (some n)) => toString n = v
  | some (.num none) => false
  | some (.boolean b) =>
      if b then v = "1" ∨ v = "true" ∨ v = "True" else v = "0" ∨ v = "false" ∨ v = "False"
  | some (.files _) => false
  | none => false

/-- Whether a cell counts as empty for the `empty`/`not_empty` operators. -/
def cellIsEmpty (c : Option CellValue) : Bool :=
  match c with
  | some (.text s) => s = ""
  | some (.num n) => n.isNone
  | some (.boolean b) => b = false
  | some (.files fs) => fs.isEmpty
  | none => true

/-- The compiled leaf predicate of one view filter on one row. -/
def matchesFilter (row : Row) (f : ViewFilter) : Bool :=
  match f.type with
  | "equal" => cellEqString (row.getValue f.fieldId) f.value
  | "not_equal" => !cellEqString (row.getValue f.fieldId) f.value
  | "empty" => cellIsEmpty (row.getValue f.fieldId)
  | "not_empty" => !cellIsEmpty (row.getValue f.fieldId)
  | "contains" =>
      if strip f.value = "" then true
      else icontainsStr ((row.getValue f.fieldId).getD (.text "")).asText (strip f.value)
  | _ => true

/-- The view's compiled predicate on a row: its filters combined under the
view's filter mode. An empty filter list matches every row (the combined
Django `Q()` is empty) in both modes. This predicate deliberately ignores
`filtersDisabled` — per the spec, the compiled predicate stays available to
other consumers such as the row checker. -/
def viewPredicate (view : View) (row : Row) : Bool :=
  match view.filterType with
  | "OR" => view.filters.isEmpty || view.filters.any (matchesFilter row)
  | _ => view.filters.all (matchesFilter row)

/-- `apply_filters(view, rowset)` from §4.2/§6: when the view's
`filters_disabled` flag is set the rowset is returned unchanged; otherwise
the compiled predicate filters the rowset, preserving order. -/
def apply_filters (view : View) (rows : List Row) : List Row :=
  let predicate := viewPredicate view
  if view.filtersDisabled then rows else rows.filter predicate

/-! ## Sort engine

Modelled from the spec: `compile(view) -> OrderSpec` / `apply` of §4.3.
Each view sort compares the referenced field's values (direction swaps that
single comparison); successive sorts break ties; the final implicit
tie-break is the row's manual fractional order key (then the row id, the
storage's final disambiguator). -/

/-- Three-way comparison from a linear order. -/
def lcmp {α : Type} [LinearOrder α] (a b : α) : Ordering :=
  if a < b then .lt else if b < a then .gt else .eq

/-- Three-way comparison on optional ints with NULLs first. -/
def cmpOptInt : Option Int → Option Int → Ordering
  | none, none => .eq
  | none, some _ => .lt
  | some _, none => .gt
  | some a, some b => lcmp a b

/-- Lexicographic three-way comparison of two lists of naturals. -/
def cmpNatList : List Nat → List Nat → Ordering
  | [], [] => .eq
  | [], _ :: _ => .lt
  | _ :: _, [] => .gt
  | x :: xs, y :: ys => (lcmp x y).then (cmpNatList xs ys)

/-- Three-way text comparison: lexicographic over the character codes (the
model of the text collation in force). -/
def cmpStr (a b : String) : Ordering :=
  cmpNatList (a.data.map Char.toNat) (b.data.map Char.toNat)

/-- Per-type three-way comparison of two cells. Cells of different types do
not order against each other. -/
def cmpCell : CellValue → CellValue → Ordering
  | .text a, .text b => cmpStr a b
  | .num a, .num b => cmpOptInt a b
  | .boolean a, .boolean b => lcmp a b
  | _, _ => .eq

/-- Compare two optional cells, missing cells first. -/
def cmpCellOpt : Option CellValue → Option CellValue → Ordering
  | none, none => .eq
  | none, some _ => .lt
  | some _, none => .gt
  | some a, some b => cmpCell a b

/-- The comparison contributed by one view sort: compare the referenced
field's cells, swapped for a descending direction. -/
def sortCmp (s : ViewSort) (a b : Row) : Ordering :=
  if s.order = "DESC" then (cmpCellOpt (a.getValue s.fieldId) (b.getValue s.fieldId)).swap
  else cmpCellOpt (a.getValue s.fieldId) (b.getValue s.fieldId)

/-- The view's total row comparison: the view sorts in order as successive
tie-breaks, then the manual fractional order key, then the row id. -/
def rowCompare (view : View) (a b : Row) : Ordering :=
  view.sorts.foldr (fun s acc => (sortCmp s a b).then acc)
    ((lcmp a.order b.order).then (lcmp a.id b.id))

/-- Boolean `≤` for sorting: `a` sorts no later than `b`. -/
def rowLe (view : View) (a b : Row) : Bool :=
  rowCompare view a b ≠ .gt

/-- Stable insertion into a sorted list. -/
def insertSorted (le : Row → Row → Bool) (x : Row) : List Row → List Row
  | [] => [x]
  | y :: ys => if le x y then x :: y :: ys else y :: insertSorted le x ys

/-- Stable insertion sort. -/
def sortRows (le : Row → Row → Bool) : List Row → List Row
  | [] => []
  | x :: xs => insertSorted le x (sortRows le xs)

/-- `apply_sorting(view, rowset)` from §4.3/§6: order the rowset by the
view's compiled comparison. -/
def apply_sorting (view : View) (rows : List Row) : List Row :=
  sortRows (rowLe view) rows

/-! ## Public visibility row checker

Modelled from the spec: §4.5. The checker is constructed once from the
table's views and an optional set of updated field ids; construction keeps
only the publicly shared views of a variant kind that exposes rows to the
public sharing path (grid-like kinds; a `form` view never matches), and
precomputes for each kept view whether its per-row result is cacheable —
i.e. whether the view's filters reference only fields outside
`updated_field_ids`. Each per-row check of a view with filters costs one
existence-style query, counted explicitly; filterless views and cache hits
cost none. -/

/-- Whether a view variant kind participates in public row visibility
results (and wants realtime row events): grid-like kinds do, `form` does
not. -/
def viewKindChecksRows (viewType : String) : Bool :=
  viewType = "grid" || viewType = "gallery"

/-- One precomputed entry of the row checker. -/
structure CheckerEntry where
  view : View
  cacheable : Bool
deriving DecidableEq, Repr

/-- The row checker: the precomputed view entries in view order, and the
instance-scoped cache keyed by (view id, row id). -/
structure RowChecker where
  entries : List CheckerEntry
  cache : List ((Nat × Nat) × Bool)
deriving DecidableEq, Repr

/-- `get_public_views_row_checker(table, model, ..., updated_field_ids)`:
keep the public, row-checking views in order; an entry is cacheable when
every filter of its view references a field outside `updatedFieldIds`. -/
def getPublicViewsRowChecker (views : List View) (updatedFieldIds : List Nat) :
    RowChecker :=
  { entries := (views.filter (fun v => v.public && viewKindChecksRows v.viewType)).map
      (fun v => { view := v,
                  cacheable := v.filters.all (fun f => f.fieldId ∉ updatedFieldIds) }),
    cache := [] }

/-- Cache lookup by (view id, row id). -/
def cacheLookup (cache : List ((Nat × Nat) × Bool)) (key : Nat × Nat) : Option Bool :=
  (cache.find? (fun p => p.fst = key)).map (fun p => p.snd)

/-- Check one view entry against a row: a filterless view is always visible
at no query cost; a cacheable entry first consults the cache (a hit costs no
query); otherwise the view's compiled predicate is evaluated against the
row's current values at the cost of one query, and the outcome is cached
when the entry is cacheable. Returns (visible, new cache, queries issued). -/
def checkEntry (cache : List ((Nat × Nat) × Bool)) (e : CheckerEntry) (row : Row) :
    Bool × List ((Nat × Nat) × Bool) × Nat :=
  if e.view.filters.isEmpty then (true, cache, 0)
  else if e.cacheable then
    match cacheLookup cache (e.view.id, row.id) with
    | some b => (b, cache, 0)
    | none =>
        let b := viewPredicate e.view row
        (b, ((e.view.id, row.id), b) :: cache, 1)
  else (viewPredicate e.view row, cache, 1)

/-- Walk the checker entries in order for one row, threading the cache and
summing the issued queries. Returns (visible views, final cache, queries). -/
def checkLoop (cache : List ((Nat × Nat) × Bool)) (entries : List CheckerEntry)
    (row : Row) : List View × List ((Nat × Nat) × Bool) × Nat :=
  match entries with
  | [] => ([], cache, 0)
  | e :: rest =>
      let r := checkEntry cache e row
      let rec' := checkLoop r.2.1 rest row
      ((if r.1 then [e.view] else []) ++ rec'.1, rec'.2.1, r.2.2 + rec'.2.2)

/-- `get_public_views_where_row_is_visible(row)`: the views (in view order)
whose filters the row currently satisfies, together with the updated checker
state and the number of queries the call issued. -/
def getPublicViewsWhereRowIsVisible (rc : RowChecker) (row : Row) :
    List View × RowChecker × Nat :=
  let r := checkLoop rc.cache rc.entries row
  (r.1, { rc with cache := r.2.1 }, r.2.2)

/-- The batch result's allowed-rows field: either the explicit ids among the
asked rows, or the `ALL_ROWS_ALLOWED` sentinel. -/
inductive AllowedRows where
  | allRowsAllowed : AllowedRows
  | ids : List Nat → AllowedRows
deriving DecidableEq, Repr

/-- One element of the batch result: a view with its allowed rows. -/
structure PublicViewRows where
  view : View
  allowedRowIds : AllowedRows
deriving DecidableEq, Repr

/-- `get_public_views_where_rows_are_visible(rows)`: the batch form. For a
filterless view the `ALL_ROWS_ALLOWED` sentinel is returned instead of
materializing the given row ids; otherwise the ids of the asked rows that
satisfy the view's predicate. -/
def getPublicViewsWhereRowsAreVisible (rc : RowChecker) (rows : List Row) :
    List PublicViewRows :=
  rc.entries.map (fun e =>
    if e.view.filters.isEmpty then { view := e.view, allowedRowIds := .allRowsAllowed }
    else { view := e.view,
           allowedRowIds := .ids ((rows.filter (viewPredicate e.view)).map Row.id) })

/-! ## View materialization index manager and configuration store

Modelled from the spec: §4.4, §4.6 and §3's `MaterializedIndex` lifecycle.
A `World` carries the live views, the set of existing index storage names,
the pending (scheduled, not yet run) index build tasks, the collation
identifier and a fresh-id counter. The index name is derived
deterministically from the view's table, its ordered sort list and the
collation — so two views of one table with identical sort configuration
derive the same name, while a duplicated table's views derive different
ones. Dropping is reference-counted: an index is dropped only when no other
live view still requires its exact signature. -/

/-- The world state: live views, existing index storage names, scheduled
index build tasks (view ids), the collation identifier, and the next fresh
view id. -/
structure World where
  views : List View
  indexes : List String
  pendingIndexBuilds : List Nat
  collation : String
  nextId : Nat
deriving DecidableEq, Repr

/-- Serialize a sort list into the index-name signature part. -/
def serializeSorts (sorts : List ViewSort) : String :=
  sorts.foldl (fun acc s => acc ++ "_" ++ toString s.fieldId ++ s.order) ""

/-- The index name a view currently requires (its signature rendered as a
storage name), or `none` when the view has no sorts — `get_index`'s pure
read of the desired signature. -/
def indexName (collation : String) (view : View) : Option String :=
  if view.sorts.isEmpty then none
  else some ("ix_" ++ toString view.tableId ++ serializeSorts view.sorts ++ "_" ++ collation)

/-- `get_index(view, model)`: the index descriptor (its name) the view
currently requires, `none` in the NoIndex state. -/
def getIndex (w : World) (view : View) : Option String :=
  indexName w.collation view

/-- `does_index_exist(name)`: existence probe against persisted storage. -/
def doesIndexExist (w : World) (name : String) : Bool :=
  name ∈ w.indexes

/-- Whether some live view other than `viewId` still requires the index
signature rendered as `name`. -/
def otherViewRequires (w : World) (viewId : Nat) (name : String) : Bool :=
  w.views.any (fun u => u.id ≠ viewId && indexName w.collation u = some name)

/-- Find a live view by id. -/
def findView (w : World) (viewId : Nat) : Option View :=
  w.views.find? (fun v => v.id = viewId)

/-- Replace a view in the world by id. -/
def setView (w : World) (v : View) : World :=
  { w with views := w.views.map (fun u => if u.id = v.id then v else u) }

/-- Add an index storage name (idempotent). -/
def addIndex (w : World) (name : String) : World :=
  if name ∈ w.indexes then w else { w with indexes := name :: w.indexes }

/-- Drop an index storage name. -/
def dropIndex (w : World) (name : String) : World :=
  { w with indexes := w.indexes.filter (fun n => n ≠ name) }

/-- Drop a view's previous index storage, but only when no other live view
still requires that exact signature. -/
def dropOldIndex (w : World) (viewId : Nat) : Option String → World
  | some old => if otherViewRequires w viewId old then w else dropIndex w old
  | none => w

/-- Create the storage for a view's new signature, when there is one. -/
def createNewIndex (w : World) : Option String → World
  | some n => addIndex w n
  | none => w

/-- `update_index(view, model)`: idempotent build/replace for the view's
current desired signature. When the signature is unchanged this is a no-op;
otherwise the view's denormalized index pointer is updated, the old storage
is dropped — only if no other live view still requires it — and the new
storage for the current signature is created. -/
def updateIndex (w : World) (viewId : Nat) : World :=
  match findView w viewId with
  | none => w
  | some v =>
      if v.dbIndexName = indexName w.collation v then w
      else
        createNewIndex
          (dropOldIndex (setView w { v with dbIndexName := indexName w.collation v })
            viewId v.dbIndexName)
          (indexName w.collation v)

/-- Run one scheduled index build task for a view. -/
def runPendingBuild (w : World) (viewId : Nat) : World :=
  let w1 := updateIndex w viewId
  { w1 with pendingIndexBuilds := w1.pendingIndexBuilds.filter (fun i => i ≠ viewId) }

/-- `delete_sort`: remove the sort from its view's configuration and
recompute the view's index for the new signature. -/
def deleteSort (w : World) (viewId sortId : Nat) : World :=
  match findView w viewId with
  | none => w
  | some v =>
      let w1 := setView w { v with sorts := v.sorts.filter (fun s => s.id ≠ sortId) }
      updateIndex w1 viewId

/-- `view_permanently_deleted` handling: remove the view (and its pending
build tasks); drop the index storage it pointed at unless another live view
still requires that exact signature. -/
def permDeleteView (w : World) (viewId : Nat) : World :=
  match findView w viewId with
  | none => w
  | some v =>
      dropOldIndex
        { w with
          views := w.views.filter (fun u => u.id ≠ viewId),
          pendingIndexBuilds := w.pendingIndexBuilds.filter (fun i => i ≠ viewId) }
        viewId v.dbIndexName

/-! ## Field type registry and field type change

Modelled from the spec: §4.1's registry contract and §3's lazy invalidation
of dependent filters and sorts on a field type change. The compatibility
table covers the closed set of types and operators the tests exercise. -/

/-- Which field types a filter operator is declared compatible with. -/
def filterOpCompatible (op fieldType : String) : Bool :=
  match op with
  | "equal" => fieldType ∈ ["text", "long_text", "number", "boolean", "date"]
  | "not_equal" => fieldType ∈ ["text", "long_text", "number", "boolean", "date"]
  | "contains" => fieldType ∈ ["text", "long_text", "number", "date"]
  | "contains_word" => fieldType ∈ ["text", "long_text"]
  | "filename_contains" => fieldType ∈ ["file"]
  | "empty" => fieldType ≠ "link_row"
  | "not_empty" => fieldType ≠ "link_row"
  | _ => false

/-- `get_sort_capability(field_type)`: whether the type supports ordering. -/
def fieldTypeOrderable (fieldType : String) : Bool :=
  fieldType ∈ ["text", "long_text", "number", "boolean", "date"]

/-- A field's type changed: every view filter referencing the field whose
operator is incompatible with the new type is deleted, every view sort
referencing the field is deleted when the new type does not support
ordering; all other filters and sorts are untouched. -/
def fieldTypeChanged (views : List View) (fieldId : Nat) (newType : String) :
    List View :=
  views.map (fun v =>
    { v with
      filters := v.filters.filter
        (fun f => f.fieldId ≠ fieldId || filterOpCompatible f.type newType),
      sorts := v.sorts.filter
        (fun s => s.fieldId ≠ fieldId || fieldTypeOrderable newType) })

/-! ## View duplication

Modelled from the spec: §4.6's duplication contract and §4.4's "duplicating
a View does not duplicate or share index storage". The duplicate
deep-copies filters, sorts, decorations and field options, picks the first
free numeric disambiguator appended to the source name, is inserted
immediately after the source in order, is never public, starts with no
index pointer, and only a build task for it is scheduled — the existing
index storage set is untouched. -/

/-- The first `n ≥ 2` such that `base ++ " " ++ n` collides with no existing
name; candidates up to one more than the number of existing names suffice. -/
def firstFreeSuffix (existing : List String) (base : String) : Nat :=
  ((List.range' 2 (existing.length + 1)).find?
    (fun n => (base ++ " " ++ toString n) ∉ existing)).getD (existing.length + 2)

/-- Disambiguated name for a duplicate. -/
def duplicateName (existing : List String) (base : String) : String :=
  base ++ " " ++ toString (firstFreeSuffix existing base)

/-- `duplicate_view(view)`: the duplicated view value for a source view in a
world — fresh id, disambiguated name (against the names of the source
table's views), position right after the source, public sharing reset,
configuration deep-copied, no index pointer. -/
def duplicatedView (w : World) (v : View) : View :=
  { v with
    id := w.nextId,
    name := duplicateName ((w.views.filter (fun u => u.tableId = v.tableId)).map View.name)
      v.name,
    order := v.order + 1,
    public := false,
    dbIndexName := none }

/-- Shift a view one position later when it sits after the given position
in the given table (making room for an inserted duplicate). -/
def bumpOrder (tableId position : Nat) (u : View) : View :=
  if u.tableId = tableId && u.order > position then { u with order := u.order + 1 }
  else u

/-- The world after duplicating the source view `v`: the table's later
views are shifted to make room, the duplicate is appended, the fresh id is
consumed, and the duplicate's own index build is scheduled. Note the
existing index storage set is untouched. -/
def dupWorld (w : World) (v : View) : World :=
  { w with
    views := (w.views.map (bumpOrder v.tableId v.order)) ++ [duplicatedView w v],
    nextId := w.nextId + 1,
    pendingIndexBuilds := w.pendingIndexBuilds ++ [(duplicatedView w v).id] }

/-- `duplicate_view`: insert the duplicate after the source, allocate the
fresh id and schedule the duplicate's own index build. Returns the new
world and the duplicate. -/
def duplicateView (w : World) (viewId : Nat) : World × Option View :=
  match findView w viewId with
  | none => (w, none)
  | some v => (dupWorld w v, some (duplicatedView w v))

/-! ## Helper lemmas -/

/-! ## Concrete scenario data

Concrete views, rows and worlds used by the claim theorems, their
witnesses and counterexamples; values follow the scenarios of
`test_view_handler.py`. -/

/-- Concrete scenario data for C3: a view whose `equal` filter would keep
only the first row, but whose `filters_disabled` flag is set. -/
def c3Filter : ViewFilter := { id := 1, fieldId := 1, type := "equal", value := "Value 1" }

/-- The C3 scenario view: has a configured filter that would exclude rows,
with filtering disabled. -/
def c3View : View :=
  { id := 1, tableId := 1, viewType := "grid", name := "Grid", order := 1,
    public := false, filterType := "AND", filtersDisabled := true,
    filters := [c3Filter], sorts := [], decorations := [], fieldOptions := [],
    dbIndexName := none }

/-- The C3 scenario rowset; only the first row satisfies the view's filter. -/
def c3Rows : List Row :=
  [ { id := 1, order := 1, values := [(1, .text "Value 1")] },
    { id := 2, order := 2, values := [(1, .text "Entry 2")] } ]

/-- C5 scenario row over a text field (id 1) and a number field (id 2). -/
def c5Row (i : Nat) (t : String) (n : Int) : Row :=
  { id := i, order := 1, values := [(1, .text t), (2, .num (some n))] }

/-- The C5 scenario view: sort by the text field ascending, then the number
field ascending. -/
def c5SortView : View :=
  { id := 1, tableId := 1, viewType := "grid", name := "Grid", order := 1,
    public := false, filterType := "AND", filtersDisabled := false, filters := [],
    sorts := [⟨1, 1, "ASC"⟩, ⟨2, 2, "ASC"⟩], decorations := [], fieldOptions := [],
    dbIndexName := none }

/-- The same view with zero explicit sorts. -/
def c5NoSortView : View :=
  { c5SortView with sorts := [] }

/-- The fractional manual order key 1/10 of the seventh test row. -/
def c5Tenth : ℚ := ⟨1, 10, by decide, Nat.coprime_one_left 10⟩

/-- A row with the fractional manual order key 1/10, ordered before every
row with order key 1 regardless of creation order. -/
def c5RowSeven : Row := { id := 7, order := c5Tenth, values := [(1, .text "Aaa")] }

/-- The C4 scenario sort on field 5. -/
def c4Sort : ViewSort := { id := 1, fieldId := 5, order := "ASC" }

/-- The C4 scenario view: one sort, live index pointer. -/
def c4View : View :=
  { id := 1, tableId := 1, viewType := "grid", name := "Test grid", order := 1,
    public := false, filterType := "AND", filtersDisabled := false, filters := [],
    sorts := [c4Sort], decorations := [], fieldOptions := [],
    dbIndexName := some "ix_1_5ASC_en" }

/-- The C4 scenario world: a single view whose index storage exists. -/
def c4World : World :=
  { views := [c4View], indexes := ["ix_1_5ASC_en"], pendingIndexBuilds := [],
    collation := "en", nextId := 2 }

/-- A second view of the C4 counterexample world, requiring the same index
signature as `c4View` (same table, same sort configuration). -/
def c4ViewB : View :=
  { c4View with
    id := 2, name := "Test grid 2", order := 2, sorts := [⟨2, 5, "ASC"⟩] }

/-- The C4 counterexample world: two live views with identical sort
signatures sharing the one index storage. -/
def c4TwoWorld : World :=
  { views := [c4View, c4ViewB], indexes := ["ix_1_5ASC_en"],
    pendingIndexBuilds := [], collation := "en", nextId := 3 }

/-- The C1 scenario view: one sort on field 5, live index pointer. -/
def c1View : View :=
  { id := 1, tableId := 1, viewType := "grid", name := "Test grid", order := 1,
    public := false, filterType := "AND", filtersDisabled := false, filters := [],
    sorts := [⟨1, 5, "ASC"⟩], decorations := [], fieldOptions := [],
    dbIndexName := some "ix_1_5ASC_en" }

/-- The C1 scenario world: the one view above, with its index built. -/
def c1World : World :=
  { views := [c1View], indexes := ["ix_1_5ASC_en"], pendingIndexBuilds := [],
    collation := "en", nextId := 2 }

/-- The C2 scenario view: a public grid view filtering field 1. -/
def c2ViewA : View :=
  { id := 1, tableId := 1, viewType := "grid", name := "Grid", order := 1,
    public := true, filterType := "AND", filtersDisabled := false,
    filters := [{ id := 1, fieldId := 1, type := "equal", value := "FilterValue" }],
    sorts := [], decorations := [], fieldOptions := [], dbIndexName := none }

/-- The C2 scenario row (visible under the filter). -/
def c2RowVisible : Row :=
  { id := 1, order := 1, values := [(1, .text "FilterValue"), (2, .text "any")] }

/-- The same row identity with a different value in the unfiltered field. -/
def c2RowVisible' : Row :=
  { id := 1, order := 1, values := [(1, .text "FilterValue"), (2, .text "other")] }

/-- The C7 scenario view: a public filterless grid view. -/
def c7View : View :=
  { id := 1, tableId := 1, viewType := "grid", name := "Grid", order := 1,
    public := true, filterType := "AND", filtersDisabled := false, filters := [],
    sorts := [], decorations := [], fieldOptions := [], dbIndexName := none }

/-- The C7 scenario row. -/
def c7Row : Row :=
  { id := 1, order := 1, values := [(1, .text "any"), (2, .text "any")] }

/-- The C8 scenario views: a public grid view, a public form view (excluded
by kind) and a non-public grid view (excluded by sharing). -/
def c8Grid : View :=
  { id := 1, tableId := 1, viewType := "grid", name := "Grid", order := 1,
    public := true, filterType := "AND", filtersDisabled := false, filters := [],
    sorts := [], decorations := [], fieldOptions := [], dbIndexName := none }

/-- The public form view of the C8 scenario. -/
def c8Form : View :=
  { c8Grid with id := 2, viewType := "form", name := "Form", order := 2 }

/-- The non-public grid view of the C8 scenario. -/
def c8Private : View :=
  { c8Grid with id := 3, public := false, name := "Private", order := 3 }

/-- The C9 scenario view: a `contains` filter and an ascending sort, both on
field 1 (a text field about to change type). -/
def c9View : View :=
  { id := 1, tableId := 1, viewType := "grid", name := "Grid", order := 1,
    public := false, filterType := "AND", filtersDisabled := false,
    filters := [{ id := 1, fieldId := 1, type := "contains", value := "test" }],
    sorts := [{ id := 1, fieldId := 1, order := "ASC" }],
    decorations := [], fieldOptions := [], dbIndexName := none }

/-- The C10 scenario source view: a public grid view with a filter, a sort,
a decoration and a field option. -/
def c10View : View :=
  { id := 1, tableId := 1, viewType := "grid", name := "Grid", order := 1,
    public := true, filterType := "AND", filtersDisabled := false,
    filters := [{ id := 1, fieldId := 1, type := "equal", value := "test" }],
    sorts := [{ id := 1, fieldId := 1, order := "ASC" }],
    decorations := [{ id := 1, valueProviderConf := "config 12" }],
    fieldOptions := [{ fieldId := 1, hidden := false, aggregationType := "whatever" }],
    dbIndexName := none }

/-- The C10 scenario world around the source view. -/
def c10World : World :=
  { views := [c10View], indexes := [], pendingIndexBuilds := [],
    collation := "en", nextId := 2 }

theorem lcmp_swap {α : Type} [LinearOrder α] (a b : α) :
    lcmp a b = (lcmp b a).swap := by
  unfold lcmp
  rcases lt_trichotomy a b with h | h | h
  · rw [if_pos h, if_neg (asymm h), if_pos h]; rfl
  · subst h
    rw [if_neg (lt_irrefl a), if_neg (lt_irrefl a)]; rfl
  · rw [if_neg (asymm h), if_pos h, if_pos h]; rfl

theorem lcmp_eq_iff {α : Type} [LinearOrder α] (a b : α) :
    lcmp a b = .eq ↔ a = b := by
  unfold lcmp
  rcases lt_trichotomy a b with h | h | h
  · rw [if_pos h]
    simp [ne_of_lt h]
  · subst h
    rw [if_neg (lt_irrefl a), if_neg (lt_irrefl a)]
    simp
  · rw [if_neg (asymm h), if_pos h]
    simp [(ne_of_lt h).symm]

theorem cmpOptInt_swap (a b : Option Int) : cmpOptInt a b = (cmpOptInt b a).swap := by
  cases a <;> cases b <;> simp only [cmpOptInt] <;>
    first | rfl | exact lcmp_swap _ _

theorem cmpNatList_swap (a b : List Nat) : cmpNatList a b = (cmpNatList b a).swap := by
  induction a generalizing b with
  | nil => cases b <;> rfl
  | cons x xs ih =>
      cases b with
      | nil => rfl
      | cons y ys =>
          simp only [cmpNatList, Ordering.swap_then, ← lcmp_swap, ← ih]

theorem cmpStr_swap (a b : String) : cmpStr a b = (cmpStr b a).swap :=
  cmpNatList_swap _ _

theorem cmpCell_swap (a b : CellValue) : cmpCell a b = (cmpCell b a).swap := by
  cases a <;> cases b <;> simp only [cmpCell] <;>
    first | rfl | exact cmpStr_swap _ _ | exact lcmp_swap _ _ | exact cmpOptInt_swap _ _

theorem cmpCellOpt_swap (a b : Option CellValue) :
    cmpCellOpt a b = (cmpCellOpt b a).swap := by
  cases a <;> cases b <;> simp only [cmpCellOpt] <;>
    first | rfl | exact cmpCell_swap _ _

theorem sortCmp_swap (s : ViewSort) (a b : Row) :
    sortCmp s a b = (sortCmp s b a).swap := by
  unfold sortCmp
  by_cases h : s.order = "DESC"
  · rw [if_pos h, if_pos h, cmpCellOpt_swap (a.getValue s.fieldId) (b.getValue s.fieldId)]
  · rw [if_neg h, if_neg h, cmpCellOpt_swap (a.getValue s.fieldId) (b.getValue s.fieldId)]

theorem rowCompare_swap (view : View) (a b : Row) :
    rowCompare view a b = (rowCompare view b a).swap := by
  unfold rowCompare
  induction view.sorts with
  | nil =>
      rw [List.foldr_nil, List.foldr_nil, Ordering.swap_then, ← lcmp_swap, ← lcmp_swap]
  | cons s rest ih =>
      rw [List.foldr_cons, List.foldr_cons, Ordering.swap_then, ← ih,
        ← sortCmp_swap s a b]

theorem rowCompare_eq_of (view : View) (a b : Row)
    (h : rowCompare view a b = .eq) : a.order = b.order ∧ a.id = b.id := by
  unfold rowCompare at h
  revert h
  induction view.sorts with
  | nil =>
      intro h
      rw [List.foldr_nil, Ordering.then_eq_eq] at h
      exact ⟨(lcmp_eq_iff a.order b.order).mp h.1, (lcmp_eq_iff a.id b.id).mp h.2⟩
  | cons s rest ih =>
      intro h
      rw [List.foldr_cons, Ordering.then_eq_eq] at h
      exact ih h.2

theorem rowLe_total (view : View) (a b : Row) :
    rowLe view a b = true ∨ rowLe view b a = true := by
  unfold rowLe
  rcases h : rowCompare view a b with _ | _ | _
  · left; simp [h]
  · left; simp [h]
  · right
    have hs := rowCompare_swap view a b
    rw [h] at hs
    have hba : rowCompare view b a = .lt := by
      cases h2 : rowCompare view b a <;> rw [h2] at hs <;> simp_all [Ordering.swap]
    simp [hba]

/-! ## Claim C6 -/

/-- C6: for every string-like filter operator (`contains`, `contains_word`,
`filename_contains`) and every field, when the filter's raw value is the
empty string the compiled predicate matches every row (a no-op filter),
rather than matching only rows whose value is the empty string. -/
theorem claim_C6_empty_string_filters_match_everything (fieldName : String)
    (row : NamedRow) :
    evalOptQ row (contains_filter fieldName "") = true ∧
    evalOptQ row (contains_word_filter fieldName "") = true ∧
    evalOptQ row (filename_contains_filter fieldName "") = true :=
  ⟨rfl, rfl, rfl⟩

/-! ## Claim C3 -/

/-- C3: for every rowset R and every view V whose `filters_disabled` flag is
true, `apply_filters(V, R)` returns R unchanged (same rows in the same
order), even when V has configured ViewFilters that would otherwise exclude
rows. -/
theorem claim_C3_filters_disabled_returns_rowset_unchanged (view : View)
    (rows : List Row) (h : view.filtersDisabled = true) :
    apply_filters view rows = rows := by
  simp [apply_filters, h]

/-- Witness for C3 at the concrete scenario: the view has filtering disabled
(and a filter that matches only one of the two rows), yet `apply_filters`
returns both rows unchanged. -/
theorem claim_C3_filters_disabled_returns_rowset_unchanged_witness :
    c3View.filtersDisabled = true ∧ apply_filters c3View c3Rows = c3Rows :=
  ⟨rfl, claim_C3_filters_disabled_returns_rowset_unchanged c3View c3Rows rfl⟩

/-! ## Claim C5 -/

/-- C5: `apply_sorting` applies the view's ViewSorts in order as successive
tie-breaks and finally tie-breaks by the row's manual fractional order key,
yielding a total deterministic order for every rowset, even with zero
explicit sorts. In particular, sorting by text ASC then number ASC over
rows [(Aaa,30),(Aaa,20),(Aaa,10),(Bbbb,60)] yields
[(Aaa,10),(Aaa,20),(Aaa,30),(Bbbb,60)]; with zero explicit sorts the
fractional order key orders the rowset; the compiled row comparison is
total, and it only ever equates rows agreeing on the final tie-break keys. -/
theorem claim_C5_apply_sorting_successive_tie_breaks :
    apply_sorting c5SortView
        [c5Row 1 "Aaa" 30, c5Row 2 "Aaa" 20, c5Row 3 "Aaa" 10, c5Row 4 "Bbbb" 60]
      = [c5Row 3 "Aaa" 10, c5Row 2 "Aaa" 20, c5Row 1 "Aaa" 30, c5Row 4 "Bbbb" 60] ∧
    apply_sorting c5NoSortView [c5Row 1 "Aaa" 30, c5RowSeven]
      = [c5RowSeven, c5Row 1 "Aaa" 30] ∧
    (∀ (view : View) (a b : Row), rowLe view a b = true ∨ rowLe view b a = true) ∧
    (∀ (view : View) (a b : Row),
      rowCompare view a b = .eq → a.order = b.order ∧ a.id = b.id) := by
  refine ⟨by decide, by decide, rowLe_total, ?_⟩
  intro view a b h
  exact rowCompare_eq_of view a b h

/-- Witness for C5's hypothesis-bearing conjunct at a concrete input: a row
compares equal to itself, and the theorem then yields the tie-break key
equalities. -/
theorem claim_C5_apply_sorting_successive_tie_breaks_witness :
    rowCompare c5SortView c5RowSeven c5RowSeven = .eq ∧
    (c5RowSeven.order = c5RowSeven.order ∧ c5RowSeven.id = c5RowSeven.id) :=
  ⟨by decide,
    claim_C5_apply_sorting_successive_tie_breaks.2.2.2 c5SortView c5RowSeven c5RowSeven
      (by decide)⟩

/-! ## World helper lemmas -/

theorem findView_id (w : World) (viewId : Nat) (v : View)
    (h : findView w viewId = some v) : v.id = viewId := by
  simpa using List.find?_some h

theorem find?_replace (l : List View) (viewId : Nat) (v v' : View)
    (h : l.find? (fun u => u.id = viewId) = some v) (hid : v'.id = viewId) :
    (l.map (fun u => if u.id = v'.id then v' else u)).find? (fun u => u.id = viewId)
      = some v' := by
  induction l with
  | nil => simp at h
  | cons a l ih =>
      by_cases ha : a.id = viewId
      · have hav : a.id = v'.id := by rw [ha, hid]
        simp only [List.map_cons, if_pos hav]
        exact List.find?_cons_of_pos _ (by simpa using hid)
      · have hav : ¬a.id = v'.id := by rw [hid]; exact ha
        rw [List.find?_cons_of_neg _ (by simpa using ha)] at h
        simp only [List.map_cons, if_neg hav]
        rw [List.find?_cons_of_neg _ (by simpa using ha)]
        exact ih h

theorem findView_setView (w : World) (viewId : Nat) (v v' : View)
    (h : findView w viewId = some v) (hid : v'.id = viewId) :
    findView (setView w v') viewId = some v' :=
  find?_replace w.views viewId v v' h hid

theorem setView_indexes (w : World) (v' : View) :
    (setView w v').indexes = w.indexes := rfl

theorem setView_collation (w : World) (v' : View) :
    (setView w v').collation = w.collation := rfl

theorem dropIndex_views (w : World) (n : String) : (dropIndex w n).views = w.views := rfl

theorem dropIndex_collation (w : World) (n : String) :
    (dropIndex w n).collation = w.collation := rfl

theorem mem_dropIndex (w : World) (n m : String) :
    m ∈ (dropIndex w n).indexes ↔ m ∈ w.indexes ∧ m ≠ n := by
  simp [dropIndex]

theorem otherViewRequires_setView (w : World) (v' : View) (viewId : Nat) (n : String)
    (hid : v'.id = viewId) :
    otherViewRequires (setView w v') viewId n = otherViewRequires w viewId n := by
  unfold otherViewRequires setView
  rw [List.any_map]
  congr 1
  funext u
  simp only [Function.comp_apply]
  by_cases hu : u.id = v'.id
  · simp [hu, hid]
  · simp [hu]

theorem otherViewRequires_eq_false (w : World) (viewId : Nat) (n : String)
    (h : ∀ u ∈ w.views, u.id ≠ viewId → indexName w.collation u ≠ some n) :
    otherViewRequires w viewId n = false := by
  unfold otherViewRequires
  rw [List.any_eq_false]
  intro u hu
  by_cases hid : u.id = viewId
  · simp [hid]
  · simp [hid, h u hu hid]

theorem otherViewRequires_eq_true (w : World) (viewId : Nat) (n : String)
    (u : View) (hu : u ∈ w.views) (hid : u.id ≠ viewId)
    (hn : indexName w.collation u = some n) :
    otherViewRequires w viewId n = true := by
  unfold otherViewRequires
  rw [List.any_eq_true]
  exact ⟨u, hu, by simp [hid, hn]⟩

theorem dropOldIndex_some (w : World) (viewId : Nat) (old : String) :
    dropOldIndex w viewId (some old)
      = if otherViewRequires w viewId old then w else dropIndex w old := rfl

theorem findView_dropOldIndex (w : World) (viewId vid2 : Nat) (o : Option String) :
    findView (dropOldIndex w viewId o) vid2 = findView w vid2 := by
  cases o with
  | none => rfl
  | some old =>
      rw [dropOldIndex_some]
      split <;> rfl

theorem bumpOrder_id (tableId position : Nat) (u : View) :
    (bumpOrder tableId position u).id = u.id := by
  unfold bumpOrder
  split <;> rfl

theorem bumpOrder_dbIndexName (tableId position : Nat) (u : View) :
    (bumpOrder tableId position u).dbIndexName = u.dbIndexName := by
  unfold bumpOrder
  split <;> rfl

theorem indexName_bumpOrder (c : String) (tableId position : Nat) (u : View) :
    indexName c (bumpOrder tableId position u) = indexName c u := by
  unfold bumpOrder
  split <;> rfl

theorem find?_map_id_pred (l : List View) (g : View → View) (viewId : Nat)
    (hg : ∀ u, (g u).id = u.id) :
    (l.map g).find? (fun u => u.id = viewId)
      = (l.find? (fun u => u.id = viewId)).map g := by
  induction l with
  | nil => rfl
  | cons a l ih =>
      by_cases ha : a.id = viewId
      · rw [List.map_cons, List.find?_cons_of_pos _ (by simp [hg, ha]),
          List.find?_cons_of_pos _ (by simp [ha])]
        rfl
      · rw [List.map_cons, List.find?_cons_of_neg _ (by simp [hg, ha]),
          List.find?_cons_of_neg _ (by simp [ha])]
        exact ih

/-! ## Claim C4 -/

/-- C4 (amended): for every view with exactly one ViewSort and a live
materialized index, deleting that sole ViewSort transitions the view to the
NoIndex state (`get_index` returns null) and drops the underlying index
storage provided no other live view still requires that exact signature;
when another live view does require it, the storage is kept (reference-
counted lifecycle). -/
theorem claim_C4_delete_sole_sort_noindex_and_refcounted_drop
    (w : World) (viewId : Nat) (v : View) (s : ViewSort) (n : String)
    (hf : findView w viewId = some v)
    (hs : v.sorts = [s])
    (hdb : v.dbIndexName = some n)
    (hex : doesIndexExist w n = true) :
    ∃ v', findView (deleteSort w viewId s.id) viewId = some v' ∧
      v'.sorts = [] ∧
      getIndex (deleteSort w viewId s.id) v' = none ∧
      ((∀ u ∈ w.views, u.id ≠ viewId → indexName w.collation u ≠ some n) →
        doesIndexExist (deleteSort w viewId s.id) n = false) ∧
      ((∃ u ∈ w.views, u.id ≠ viewId ∧ indexName w.collation u = some n) →
        doesIndexExist (deleteSort w viewId s.id) n = true) := by
  have hvid : v.id = viewId := findView_id w viewId v hf
  have hfA : findView (setView w { v with sorts := [] }) viewId
      = some { v with sorts := [] } :=
    findView_setView w viewId v _ hf hvid
  have hds : deleteSort w viewId s.id
      = updateIndex (setView w { v with sorts := [] }) viewId := by
    simp only [deleteSort, hf, hs]
    simp
  have hnone : indexName (setView w { v with sorts := [] }).collation
      { v with sorts := [] } = none := by
    simp [indexName]
  have hup : updateIndex (setView w { v with sorts := [] }) viewId
      = dropOldIndex (setView (setView w { v with sorts := [] })
          { v with sorts := [], dbIndexName := none }) viewId (some n) := by
    simp only [updateIndex, hfA, hnone]
    rw [if_neg (by simp [hdb])]
    simp only [createNewIndex, hdb]
  have hreq : otherViewRequires (setView (setView w { v with sorts := [] })
      { v with sorts := [], dbIndexName := none }) viewId n
        = otherViewRequires w viewId n := by
    rw [otherViewRequires_setView (setView w { v with sorts := [] })
        { v with sorts := [], dbIndexName := none } viewId n hvid,
      otherViewRequires_setView w { v with sorts := [] } viewId n hvid]
  have hfB : findView (setView (setView w { v with sorts := [] })
      { v with sorts := [], dbIndexName := none }) viewId
        = some { v with sorts := [], dbIndexName := none } :=
    findView_setView _ viewId { v with sorts := [] } _ hfA hvid
  rw [hds, hup]
  refine ⟨{ v with sorts := [], dbIndexName := none }, ?_, rfl, ?_, ?_, ?_⟩
  · rw [findView_dropOldIndex]
    exact hfB
  · simp [getIndex, indexName]
  · intro hnone2
    have hb : otherViewRequires w viewId n = false :=
      otherViewRequires_eq_false w viewId n hnone2
    rw [dropOldIndex_some, hreq, hb]
    simp [doesIndexExist, dropIndex]
  · rintro ⟨u, hu, huid, hun⟩
    have hb : otherViewRequires w viewId n = true :=
      otherViewRequires_eq_true w viewId n u hu huid hun
    rw [dropOldIndex_some, hreq, hb]
    simpa [doesIndexExist, setView] using hex

/-- Witness for C4 at the test's scenario world (one view, one sort, live
index): after deleting the sole sort the view reaches NoIndex and the
storage is dropped because nothing else requires the signature. -/
theorem claim_C4_delete_sole_sort_noindex_and_refcounted_drop_witness :
    (findView c4World 1 = some c4View ∧ c4View.sorts = [c4Sort] ∧
      c4View.dbIndexName = some "ix_1_5ASC_en" ∧
      doesIndexExist c4World "ix_1_5ASC_en" = true) ∧
    (∃ v', findView (deleteSort c4World 1 c4Sort.id) 1 = some v' ∧
      v'.sorts = [] ∧
      getIndex (deleteSort c4World 1 c4Sort.id) v' = none ∧
      ((∀ u ∈ c4World.views, u.id ≠ 1 → indexName c4World.collation u ≠ some "ix_1_5ASC_en") →
        doesIndexExist (deleteSort c4World 1 c4Sort.id) "ix_1_5ASC_en" = false) ∧
      ((∃ u ∈ c4World.views, u.id ≠ 1 ∧ indexName c4World.collation u = some "ix_1_5ASC_en") →
        doesIndexExist (deleteSort c4World 1 c4Sort.id) "ix_1_5ASC_en" = true)) :=
  ⟨⟨rfl, rfl, rfl, rfl⟩,
    claim_C4_delete_sole_sort_noindex_and_refcounted_drop c4World 1 c4View c4Sort
      "ix_1_5ASC_en" rfl rfl rfl rfl⟩

/-- Counterexample to C4 as stated: view 1 of `c4TwoWorld` has exactly one
ViewSort and a live materialized index, and deleting that sole ViewSort
does transition it to NoIndex — but `does_index_exist` on the old index
name stays true, because view 2 still requires the same signature; the
claim asserts the storage is always dropped. -/
theorem claim_C4_counterexample :
    findView c4TwoWorld 1 = some c4View ∧
    c4View.sorts = [c4Sort] ∧
    c4View.dbIndexName = some "ix_1_5ASC_en" ∧
    doesIndexExist c4TwoWorld "ix_1_5ASC_en" = true ∧
    findView (deleteSort c4TwoWorld 1 c4Sort.id) 1
      = some { c4View with sorts := [], dbIndexName := none } ∧
    getIndex (deleteSort c4TwoWorld 1 c4Sort.id)
      { c4View with sorts := [], dbIndexName := none } = none ∧
    doesIndexExist (deleteSort c4TwoWorld 1 c4Sort.id) "ix_1_5ASC_en" = true := by
  refine ⟨rfl, rfl, rfl, rfl, ?_, rfl, ?_⟩ <;> decide

/-! ## Claim C1 -/

theorem findView_dupWorld_dup (w : World) (v : View)
    (hfresh : ∀ u ∈ w.views, u.id ≠ w.nextId) :
    findView (dupWorld w v) (duplicatedView w v).id = some (duplicatedView w v) := by
  show ((w.views.map (bumpOrder v.tableId v.order)) ++ [duplicatedView w v]).find?
      (fun u => u.id = (duplicatedView w v).id) = some (duplicatedView w v)
  rw [List.find?_append]
  have h1 : (w.views.map (bumpOrder v.tableId v.order)).find?
      (fun u => u.id = (duplicatedView w v).id) = none := by
    rw [List.find?_eq_none]
    intro x hx
    rcases List.mem_map.mp hx with ⟨u, hu, rfl⟩
    simp only [bumpOrder_id, duplicatedView]
    simpa using hfresh u hu
  rw [h1, Option.none_or]
  exact List.find?_cons_of_pos _ (by simp)

theorem findView_dupWorld_src (w : World) (viewId : Nat) (v : View)
    (hf : findView w viewId = some v) :
    findView (dupWorld w v) viewId = some (bumpOrder v.tableId v.order v) := by
  have hf' : w.views.find? (fun u => u.id = viewId) = some v := hf
  show ((w.views.map (bumpOrder v.tableId v.order)) ++ [duplicatedView w v]).find?
      (fun u => u.id = viewId) = some (bumpOrder v.tableId v.order v)
  rw [List.find?_append, find?_map_id_pred w.views _ viewId (fun u => bumpOrder_id _ _ u),
    hf']
  rfl

theorem permDeleteView_dup (w : World) (v : View)
    (hfresh : ∀ u ∈ w.views, u.id ≠ w.nextId) :
    permDeleteView (dupWorld w v) (duplicatedView w v).id
      = { w with
          views := w.views.map (bumpOrder v.tableId v.order),
          nextId := w.nextId + 1,
          pendingIndexBuilds :=
            w.pendingIndexBuilds.filter (fun i => i ≠ (duplicatedView w v).id) } := by
  have hfd := findView_dupWorld_dup w v hfresh
  have hviews : ((w.views.map (bumpOrder v.tableId v.order)) ++ [duplicatedView w v]).filter
      (fun u => u.id ≠ (duplicatedView w v).id) = w.views.map (bumpOrder v.tableId v.order) := by
    rw [List.filter_append]
    have h1 : (w.views.map (bumpOrder v.tableId v.order)).filter
        (fun u => u.id ≠ (duplicatedView w v).id) = w.views.map (bumpOrder v.tableId v.order) := by
      rw [List.filter_eq_self]
      intro x hx
      rcases List.mem_map.mp hx with ⟨u, hu, rfl⟩
      simp only [bumpOrder_id, duplicatedView]
      simpa using hfresh u hu
    have h2 : ([duplicatedView w v].filter
        (fun u => u.id ≠ (duplicatedView w v).id) : List View) = [] := by simp
    rw [h1, h2, List.append_nil]
  have hpend : ((w.pendingIndexBuilds ++ [(duplicatedView w v).id]).filter
      (fun i => i ≠ (duplicatedView w v).id) : List Nat)
        = w.pendingIndexBuilds.filter (fun i => i ≠ (duplicatedView w v).id) := by
    rw [List.filter_append]
    simp
  have hdb0 : (duplicatedView w v).dbIndexName = none := rfl
  simp only [permDeleteView, hfd]
  rw [hdb0]
  simp only [dropOldIndex, dupWorld]
  rw [hviews, hpend]

theorem indexName_duplicatedView (c : String) (w : World) (v : View) :
    indexName c (duplicatedView w v) = indexName c v := rfl

theorem runPendingBuild_dup (w : World) (v : View) (n : String)
    (hn : indexName w.collation v = some n)
    (hmem : n ∈ w.indexes)
    (hfresh : ∀ u ∈ w.views, u.id ≠ w.nextId) :
    runPendingBuild (dupWorld w v) (duplicatedView w v).id
      = { setView (dupWorld w v) { duplicatedView w v with dbIndexName := some n } with
          pendingIndexBuilds :=
            w.pendingIndexBuilds.filter (fun i => i ≠ (duplicatedView w v).id) } := by
  have hfd := findView_dupWorld_dup w v hfresh
  have hnd : indexName (dupWorld w v).collation (duplicatedView w v) = some n := hn
  have hdb0 : (duplicatedView w v).dbIndexName = none := rfl
  have hpend : ((w.pendingIndexBuilds ++ [(duplicatedView w v).id]).filter
      (fun i => i ≠ (duplicatedView w v).id) : List Nat)
        = w.pendingIndexBuilds.filter (fun i => i ≠ (duplicatedView w v).id) := by
    rw [List.filter_append]
    simp
  have hmem2 : n ∈ (setView (dupWorld w v)
      { duplicatedView w v with dbIndexName := some n }).indexes := hmem
  unfold runPendingBuild
  simp only [updateIndex, hfd, hnd]
  rw [if_neg (by rw [hdb0]; simp)]
  rw [hdb0]
  simp only [dropOldIndex, createNewIndex, addIndex]
  rw [if_pos hmem2]
  simp only [setView, dupWorld]
  rw [hpend]

theorem mem_map_replace_of_ne (l : List View) (v' x : View)
    (hx : x ∈ l) (hne : x.id ≠ v'.id) :
    x ∈ l.map (fun u => if u.id = v'.id then v' else u) :=
  List.mem_map.mpr ⟨x, hx, if_neg hne⟩

theorem mem_dropOldIndex (w : World) (viewId : Nat) (n : String) (o : Option String)
    (hmem : n ∈ w.indexes)
    (hreq : o = some n → otherViewRequires w viewId n = true) :
    n ∈ (dropOldIndex w viewId o).indexes := by
  cases o with
  | none => exact hmem
  | some old =>
      rw [dropOldIndex_some]
      split
      next h => exact hmem
      next h =>
        rw [mem_dropIndex]
        refine ⟨hmem, fun heq => ?_⟩
        apply h
        have := hreq (by rw [heq])
        rw [heq] at this
        exact this

theorem permDelete_dup_after_build_keeps (w : World) (viewId : Nat) (v : View)
    (n : String)
    (hf : findView w viewId = some v)
    (hn : indexName w.collation v = some n)
    (hmem : n ∈ w.indexes)
    (hfresh : ∀ u ∈ w.views, u.id ≠ w.nextId) :
    n ∈ (permDeleteView (runPendingBuild (dupWorld w v) (duplicatedView w v).id)
        (duplicatedView w v).id).indexes := by
  have hvmem : v ∈ w.views := List.mem_of_find?_eq_some hf
  rw [runPendingBuild_dup w v n hn hmem hfresh]
  have hfd := findView_dupWorld_dup w v hfresh
  have hfd2 : findView
      { setView (dupWorld w v) { duplicatedView w v with dbIndexName := some n } with
        pendingIndexBuilds :=
          w.pendingIndexBuilds.filter (fun i => i ≠ (duplicatedView w v).id) }
      (duplicatedView w v).id
        = some { duplicatedView w v with dbIndexName := some n } :=
    find?_replace (dupWorld w v).views (duplicatedView w v).id (duplicatedView w v)
      { duplicatedView w v with dbIndexName := some n } hfd rfl
  simp only [permDeleteView, hfd2]
  apply mem_dropOldIndex
  · exact hmem
  · intro _
    apply otherViewRequires_eq_true _ _ n (bumpOrder v.tableId v.order v)
    · refine List.mem_filter.mpr ⟨?_, ?_⟩
      · apply mem_map_replace_of_ne
        · exact List.mem_append_left _ (List.mem_map_of_mem _ hvmem)
        · rw [bumpOrder_id]
          exact hfresh v hvmem
      · rw [bumpOrder_id]
        simpa using hfresh v hvmem
    · rw [bumpOrder_id]
      exact hfresh v hvmem
    · rw [indexName_bumpOrder]
      exact hn

theorem not_mem_dropOldIndex (w : World) (viewId : Nat) (n : String)
    (hreq : otherViewRequires w viewId n = false) :
    n ∉ (dropOldIndex w viewId (some n)).indexes := by
  rw [dropOldIndex_some, if_neg (by simp [hreq])]
  simp [mem_dropIndex]

theorem permDelete_src_keeps (w : World) (viewId : Nat) (v : View) (n : String)
    (hf : findView w viewId = some v)
    (hn : indexName w.collation v = some n)
    (hmem : n ∈ w.indexes)
    (hfresh : ∀ u ∈ w.views, u.id ≠ w.nextId) :
    n ∈ (permDeleteView (dupWorld w v) viewId).indexes := by
  have hvmem : v ∈ w.views := List.mem_of_find?_eq_some hf
  have hvid : v.id = viewId := findView_id w viewId v hf
  have hne : viewId ≠ w.nextId := by
    rw [← hvid]
    exact hfresh v hvmem
  have hfs := findView_dupWorld_src w viewId v hf
  simp only [permDeleteView, hfs]
  apply mem_dropOldIndex
  · exact hmem
  · intro _
    apply otherViewRequires_eq_true _ _ n (duplicatedView w v)
    · refine List.mem_filter.mpr ⟨?_, ?_⟩
      · exact List.mem_append_right _ (List.mem_singleton.mpr rfl)
      · simpa using hne.symm
    · exact hne.symm
    · rw [indexName_duplicatedView]
      exact hn

theorem permDelete_src_drops_after_dup_gone (w : World) (viewId : Nat) (v : View)
    (n : String)
    (hf : findView w viewId = some v)
    (hdb : v.dbIndexName = some n)
    (hfresh : ∀ u ∈ w.views, u.id ≠ w.nextId)
    (honly : ∀ u ∈ w.views, u.id ≠ viewId → indexName w.collation u ≠ some n) :
    n ∉ (permDeleteView (permDeleteView (dupWorld w v) (duplicatedView w v).id)
        viewId).indexes := by
  rw [permDeleteView_dup w v hfresh]
  have hf' : w.views.find? (fun u => u.id = viewId) = some v := hf
  have hfs2 : findView
      { w with
        views := w.views.map (bumpOrder v.tableId v.order),
        nextId := w.nextId + 1,
        pendingIndexBuilds :=
          w.pendingIndexBuilds.filter (fun i => i ≠ (duplicatedView w v).id) } viewId
        = some (bumpOrder v.tableId v.order v) := by
    show (w.views.map (bumpOrder v.tableId v.order)).find? (fun u => u.id = viewId)
      = some (bumpOrder v.tableId v.order v)
    rw [find?_map_id_pred w.views _ viewId (fun u => bumpOrder_id _ _ u), hf']
    rfl
  simp only [permDeleteView, hfs2]
  rw [show (bumpOrder v.tableId v.order v).dbIndexName = some n from
    (bumpOrder_dbIndexName _ _ v).trans hdb]
  apply not_mem_dropOldIndex
  apply otherViewRequires_eq_false
  intro u hu hne2
  rcases List.mem_map.mp (List.mem_filter.mp hu).1 with ⟨u0, hu0, rfl⟩
  rw [indexName_bumpOrder]
  rw [bumpOrder_id] at hne2
  exact honly u0 hu0 hne2

/-- C1 (amended): duplicating a view V with a live materialized index
produces a duplicate whose index storage is neither copied from V nor
dropped at duplication time: the duplicate starts with no index of its own
and only schedules its own build. Permanently deleting the duplicate never
affects V's index (before or after the duplicate's build has run), and
permanently deleting V drops V's index only once no other live view — in
particular the duplicate — still requires the same index signature. -/
theorem claim_C1_duplicate_view_index_lifecycle
    (w : World) (viewId : Nat) (v : View) (n : String)
    (hf : findView w viewId = some v)
    (hn : indexName w.collation v = some n)
    (hdb : v.dbIndexName = some n)
    (hex : doesIndexExist w n = true)
    (hfresh : ∀ u ∈ w.views, u.id ≠ w.nextId) :
    duplicateView w viewId = (dupWorld w v, some (duplicatedView w v)) ∧
    (duplicatedView w v).dbIndexName = none ∧
    (dupWorld w v).indexes = w.indexes ∧
    (duplicatedView w v).id ∈ (dupWorld w v).pendingIndexBuilds ∧
    doesIndexExist (permDeleteView (dupWorld w v) (duplicatedView w v).id) n = true ∧
    doesIndexExist (permDeleteView (runPendingBuild (dupWorld w v)
      (duplicatedView w v).id) (duplicatedView w v).id) n = true ∧
    doesIndexExist (permDeleteView (dupWorld w v) viewId) n = true ∧
    ((∀ u ∈ w.views, u.id ≠ viewId → indexName w.collation u ≠ some n) →
      doesIndexExist (permDeleteView (permDeleteView (dupWorld w v)
        (duplicatedView w v).id) viewId) n = false) := by
  have hmem : n ∈ w.indexes := by simpa [doesIndexExist] using hex
  refine ⟨?_, rfl, rfl, ?_, ?_, ?_, ?_, ?_⟩
  · simp [duplicateView, hf]
  · simp [dupWorld]
  · rw [permDeleteView_dup w v hfresh]
    simpa [doesIndexExist] using hex
  · simpa [doesIndexExist] using
      permDelete_dup_after_build_keeps w viewId v n hf hn hmem hfresh
  · simpa [doesIndexExist] using permDelete_src_keeps w viewId v n hf hn hmem hfresh
  · intro honly
    simpa [doesIndexExist] using
      permDelete_src_drops_after_dup_gone w viewId v n hf hdb hfresh honly

/-- Witness for C1 at the concrete scenario world: the duplicate starts with
no index, deleting the duplicate keeps V's storage, and deleting V once the
duplicate is gone (and nothing else requires the signature) drops it. -/
theorem claim_C1_duplicate_view_index_lifecycle_witness :
    (findView c1World 1 = some c1View ∧
      indexName c1World.collation c1View = some "ix_1_5ASC_en" ∧
      c1View.dbIndexName = some "ix_1_5ASC_en" ∧
      doesIndexExist c1World "ix_1_5ASC_en" = true ∧
      (∀ u ∈ c1World.views, u.id ≠ c1World.nextId)) ∧
    (duplicatedView c1World c1View).dbIndexName = none ∧
    doesIndexExist (permDeleteView (dupWorld c1World c1View)
      (duplicatedView c1World c1View).id) "ix_1_5ASC_en" = true ∧
    doesIndexExist (permDeleteView (permDeleteView (dupWorld c1World c1View)
      (duplicatedView c1World c1View).id) 1) "ix_1_5ASC_en" = false :=
  ⟨⟨rfl, rfl, rfl, rfl, by decide⟩,
    (claim_C1_duplicate_view_index_lifecycle c1World 1 c1View "ix_1_5ASC_en"
      rfl rfl rfl rfl (by decide)).2.1,
    (claim_C1_duplicate_view_index_lifecycle c1World 1 c1View "ix_1_5ASC_en"
      rfl rfl rfl rfl (by decide)).2.2.2.2.1,
    (claim_C1_duplicate_view_index_lifecycle c1World 1 c1View "ix_1_5ASC_en"
      rfl rfl rfl rfl (by decide)).2.2.2.2.2.2.2 (by decide)⟩

/-- Counterexample to C1 as stated: in the concrete scenario world, after
the duplicate's scheduled build has run, permanently deleting the source
view V does NOT drop V's index — the duplicate still requires the same
signature — contradicting the claim that deleting V always drops V's index
regardless of the duplicate. -/
theorem claim_C1_counterexample :
    (duplicateView c1World 1).snd = some (duplicatedView c1World c1View) ∧
    doesIndexExist c1World "ix_1_5ASC_en" = true ∧
    doesIndexExist (permDeleteView (runPendingBuild (dupWorld c1World c1View)
      (duplicatedView c1World c1View).id) 1) "ix_1_5ASC_en" = true := by
  refine ⟨rfl, rfl, ?_⟩
  decide

/-! ## Row checker lemmas -/

theorem viewPredicate_of_no_filters (view : View) (row : Row)
    (h : view.filters = []) : viewPredicate view row = true := by
  unfold viewPredicate
  split <;> simp [h]

theorem checkEntry_of_empty (cache : List ((Nat × Nat) × Bool)) (e : CheckerEntry)
    (row : Row) (hne : e.view.filters.isEmpty = true) :
    checkEntry cache e row = (true, cache, 0) := by
  unfold checkEntry
  rw [hne]
  simp

theorem checkEntry_of_cacheable (cache : List ((Nat × Nat) × Bool)) (e : CheckerEntry)
    (row : Row) (hne : e.view.filters.isEmpty = false) (hc : e.cacheable = true) :
    checkEntry cache e row
      = (match cacheLookup cache (e.view.id, row.id) with
         | some b => (b, cache, 0)
         | none => (viewPredicate e.view row,
             ((e.view.id, row.id), viewPredicate e.view row) :: cache, 1)) := by
  unfold checkEntry
  rw [hne, hc]
  simp

theorem checkEntry_of_uncacheable (cache : List ((Nat × Nat) × Bool))
    (e : CheckerEntry) (row : Row) (hne : e.view.filters.isEmpty = false)
    (hc : e.cacheable = false) :
    checkEntry cache e row = (viewPredicate e.view row, cache, 1) := by
  unfold checkEntry
  rw [hne, hc]
  simp

theorem checkEntry_mono (cache : List ((Nat × Nat) × Bool)) (e : CheckerEntry)
    (row : Row) (k : Nat × Nat) (b : Bool)
    (hk : cacheLookup cache k = some b) :
    cacheLookup (checkEntry cache e row).2.1 k = some b := by
  cases hne : e.view.filters.isEmpty with
  | true =>
      rw [checkEntry_of_empty cache e row hne]
      exact hk
  | false =>
      cases hc : e.cacheable with
      | false =>
          rw [checkEntry_of_uncacheable cache e row hne hc]
          exact hk
      | true =>
          rw [checkEntry_of_cacheable cache e row hne hc]
          cases hlook : cacheLookup cache (e.view.id, row.id) with
          | some b2 => exact hk
          | none =>
              show cacheLookup (((e.view.id, row.id), viewPredicate e.view row) :: cache)
                k = some b
              by_cases hkey : k = (e.view.id, row.id)
              · rw [hkey] at hk
                rw [hk] at hlook
                cases hlook
              · unfold cacheLookup at hk ⊢
                rw [List.find?_cons_of_neg _ (by simpa using fun h => hkey h.symm)]
                exact hk

theorem checkLoop_mono (entries : List CheckerEntry)
    (cache : List ((Nat × Nat) × Bool)) (row : Row) (k : Nat × Nat) (b : Bool)
    (hk : cacheLookup cache k = some b) :
    cacheLookup (checkLoop cache entries row).2.1 k = some b := by
  induction entries generalizing cache with
  | nil => exact hk
  | cons e rest ih =>
      simp only [checkLoop]
      exact ih (checkEntry cache e row).2.1 (checkEntry_mono cache e row k b hk)

theorem checkEntry_caches_self (cache : List ((Nat × Nat) × Bool)) (e : CheckerEntry)
    (row : Row) (hne : e.view.filters.isEmpty = false) (hc : e.cacheable = true) :
    cacheLookup (checkEntry cache e row).2.1 (e.view.id, row.id)
      = some (checkEntry cache e row).1 := by
  rw [checkEntry_of_cacheable cache e row hne hc]
  cases hlook : cacheLookup cache (e.view.id, row.id) with
  | some b2 => simpa using hlook
  | none =>
      show cacheLookup (((e.view.id, row.id), viewPredicate e.view row) :: cache)
        (e.view.id, row.id) = some (viewPredicate e.view row)
      unfold cacheLookup
      rw [List.find?_cons_of_pos _ (by simp)]
      rfl

theorem checkEntry_cached_second (cache : List ((Nat × Nat) × Bool))
    (e : CheckerEntry) (row row' : Row) (b : Bool)
    (hid : row'.id = row.id) (hc : e.cacheable = true)
    (hk : e.view.filters.isEmpty = false →
      cacheLookup cache (e.view.id, row.id) = some b)
    (hb : e.view.filters.isEmpty = true → b = true) :
    checkEntry cache e row' = (b, cache, 0) := by
  cases hne : e.view.filters.isEmpty with
  | true => rw [checkEntry_of_empty cache e row' hne, hb hne]
  | false =>
      rw [checkEntry_of_cacheable cache e row' hne hc]
      have hkey : ((e.view.id, row'.id) : Nat × Nat) = (e.view.id, row.id) := by
        rw [hid]
      rw [hkey, hk hne]

/-- Second-call lemma: when every entry is cacheable, re-walking the
entries for the same row identity after a first walk reproduces the first
walk's results from the cache, with zero queries and no state change. -/
theorem checkLoop_second_call (entries : List CheckerEntry)
    (cache : List ((Nat × Nat) × Bool)) (row row' : Row)
    (hid : row'.id = row.id)
    (hcache : ∀ e ∈ entries, e.cacheable = true) :
    checkLoop (checkLoop cache entries row).2.1 entries row'
      = ((checkLoop cache entries row).1, (checkLoop cache entries row).2.1, 0) := by
  induction entries generalizing cache with
  | nil => rfl
  | cons e rest ih =>
      have hce : e.cacheable = true := hcache e (List.mem_cons_self e rest)
      have hrest : ∀ x ∈ rest, x.cacheable = true :=
        fun x hx => hcache x (List.mem_cons_of_mem e hx)
      simp only [checkLoop]
      have hsecond : checkEntry (checkLoop (checkEntry cache e row).2.1 rest row).2.1
          e row' = ((checkEntry cache e row).1,
            (checkLoop (checkEntry cache e row).2.1 rest row).2.1, 0) := by
        apply checkEntry_cached_second _ _ row row' _ hid hce
        · intro hne
          exact checkLoop_mono rest (checkEntry cache e row).2.1 row _ _
            (checkEntry_caches_self cache e row hne hce)
        · intro hemp
          rw [checkEntry_of_empty cache e row hemp]
      simp only [hsecond, ih (checkEntry cache e row).2.1 hrest]

/-- Fresh-walk lemma: when every entry with filters is non-cacheable, a
walk never consults nor writes the cache: it returns exactly the views
whose predicate the row's current values satisfy, leaves the cache as it
was, and issues one query per entry with filters. -/
theorem checkLoop_fresh (entries : List CheckerEntry)
    (cache : List ((Nat × Nat) × Bool)) (row : Row)
    (hnc : ∀ e ∈ entries, e.view.filters ≠ [] → e.cacheable = false) :
    checkLoop cache entries row
      = ((entries.filter (fun e => viewPredicate e.view row)).map
           (fun e => e.view), cache,
         (entries.filter (fun e => !e.view.filters.isEmpty)).length) := by
  induction entries generalizing cache with
  | nil => rfl
  | cons e rest ih =>
      have hrest : ∀ x ∈ rest, x.view.filters ≠ [] → x.cacheable = false :=
        fun x hx => hnc x (List.mem_cons_of_mem e hx)
      simp only [checkLoop]
      cases hne : e.view.filters.isEmpty with
      | true =>
          have hfe : e.view.filters = [] := List.isEmpty_iff.mp hne
          have hpred : viewPredicate e.view row = true :=
            viewPredicate_of_no_filters e.view row hfe
          simp only [checkEntry_of_empty cache e row hne, ih cache hrest]
          simp [hpred, hne]
      | false =>
          have hfe : e.view.filters ≠ [] := by
            simpa using (List.isEmpty_eq_false.mp hne)
          simp only [checkEntry_of_uncacheable cache e row hne
              (hnc e (List.mem_cons_self e rest) hfe), ih cache hrest]
          cases hp : viewPredicate e.view row <;> simp [hp, hne, Nat.add_comm]

/-- The views a walk reports all come from the walked entries. -/
theorem checkLoop_result_sub (entries : List CheckerEntry)
    (cache : List ((Nat × Nat) × Bool)) (row : Row) (vv : View)
    (hv : vv ∈ (checkLoop cache entries row).1) :
    ∃ e ∈ entries, e.view = vv := by
  induction entries generalizing cache with
  | nil => cases hv
  | cons e rest ih =>
      simp only [checkLoop] at hv
      rcases List.mem_append.mp hv with h1 | h2
      · refine ⟨e, List.mem_cons_self e rest, ?_⟩
        rcases hb : (checkEntry cache e row).1 with _ | _ <;> rw [hb] at h1
        · simp at h1
        · simp at h1
          exact h1.symm
      · rcases ih (checkEntry cache e row).2.1 h2 with ⟨x, hx, hxe⟩
        exact ⟨x, List.mem_cons_of_mem e hx, hxe⟩

/-- Walk lemma for fully filterless checkers: every entry is visible and no
query is issued. -/
theorem checkLoop_all_empty (entries : List CheckerEntry)
    (cache : List ((Nat × Nat) × Bool)) (row : Row)
    (h : ∀ e ∈ entries, e.view.filters = []) :
    checkLoop cache entries row = (entries.map (fun e => e.view), cache, 0) := by
  induction entries generalizing cache with
  | nil => rfl
  | cons e rest ih =>
      have hne : e.view.filters.isEmpty = true := by
        rw [List.isEmpty_iff]
        exact h e (List.mem_cons_self e rest)
      simp only [checkLoop, checkEntry_of_empty cache e row hne,
        ih cache (fun x hx => h x (List.mem_cons_of_mem e hx))]
      simp

/-! ## Claim C2 -/

/-- C2: for every public-views row checker constructed with a set of
updated field ids: (a) if the updated ids exclude all fields referenced by
the views' filters, then after the first call to
`get_public_views_where_row_is_visible(r)` every repeated call for the same
row identity returns the cached result with zero additional queries and no
state change; (b) if every filtered view has a filtered field among the
updated ids, no caching occurs (the checker state is unchanged) and each
call's result is computed from the row's latest field values. -/
theorem claim_C2_row_checker_caching
    (viewsA viewsB : List View) (updatedA updatedB : List Nat)
    (rowA rowA' rowB : Row)
    (hid : rowA'.id = rowA.id)
    (hA : ∀ vv ∈ viewsA, ∀ f ∈ vv.filters, f.fieldId ∉ updatedA)
    (hB : ∀ vv ∈ viewsB, vv.filters ≠ [] → ∃ f ∈ vv.filters, f.fieldId ∈ updatedB) :
    (getPublicViewsWhereRowIsVisible
        (getPublicViewsWhereRowIsVisible (getPublicViewsRowChecker viewsA updatedA)
          rowA).2.1 rowA'
      = ((getPublicViewsWhereRowIsVisible (getPublicViewsRowChecker viewsA updatedA)
            rowA).1,
         (getPublicViewsWhereRowIsVisible (getPublicViewsRowChecker viewsA updatedA)
            rowA).2.1, 0)) ∧
    (getPublicViewsWhereRowIsVisible (getPublicViewsRowChecker viewsB updatedB) rowB
      = (((getPublicViewsRowChecker viewsB updatedB).entries.filter
            (fun e => viewPredicate e.view rowB)).map (fun e => e.view),
         getPublicViewsRowChecker viewsB updatedB,
         ((getPublicViewsRowChecker viewsB updatedB).entries.filter
            (fun e => !e.view.filters.isEmpty)).length)) := by
  constructor
  · have hallc : ∀ e ∈ (getPublicViewsRowChecker viewsA updatedA).entries,
        e.cacheable = true := by
      intro e he
      rcases List.mem_map.mp he with ⟨vv, hvv, rfl⟩
      show vv.filters.all (fun f => f.fieldId ∉ updatedA) = true
      rw [List.all_eq_true]
      intro f hf
      simpa using hA vv (List.mem_of_mem_filter hvv) f hf
    have h2 := checkLoop_second_call (getPublicViewsRowChecker viewsA updatedA).entries
      (getPublicViewsRowChecker viewsA updatedA).cache rowA rowA' hid hallc
    simp only [getPublicViewsWhereRowIsVisible]
    rw [h2]
  · have hBc : ∀ e ∈ (getPublicViewsRowChecker viewsB updatedB).entries,
        e.view.filters ≠ [] → e.cacheable = false := by
      intro e he hne
      rcases List.mem_map.mp he with ⟨vv, hvv, rfl⟩
      show vv.filters.all (fun f => f.fieldId ∉ updatedB) = false
      rw [List.all_eq_false]
      rcases hB vv (List.mem_of_mem_filter hvv) hne with ⟨f, hf, hfin⟩
      exact ⟨f, hf, by simpa using hfin⟩
    have h3 := checkLoop_fresh (getPublicViewsRowChecker viewsB updatedB).entries
      (getPublicViewsRowChecker viewsB updatedB).cache rowB hBc
    simp only [getPublicViewsWhereRowIsVisible]
    rw [h3]

/-! ## Claim C7 -/

/-- C7: for every public view with zero filters, the row checker reports
every row as visible without issuing any per-row query — when all of a
table's views are filterless, each call includes every checker view and
issues zero queries — and the batch form returns the `ALL_ROWS_ALLOWED`
sentinel for that view instead of materializing the given row ids. -/
theorem claim_C7_filterless_views_always_visible_no_queries
    (views : List View) (updated : List Nat) :
    ((∀ vv ∈ views, vv.filters = []) → ∀ row : Row,
      getPublicViewsWhereRowIsVisible (getPublicViewsRowChecker views updated) row
        = ((getPublicViewsRowChecker views updated).entries.map (fun e => e.view),
           getPublicViewsRowChecker views updated, 0)) ∧
    (∀ vv ∈ views, vv.public = true → viewKindChecksRows vv.viewType = true →
      vv.filters = [] → ∀ rows : List Row,
      (⟨vv, .allRowsAllowed⟩ : PublicViewRows) ∈
        getPublicViewsWhereRowsAreVisible (getPublicViewsRowChecker views updated)
          rows) := by
  constructor
  · intro h0 row
    have hall : ∀ e ∈ (getPublicViewsRowChecker views updated).entries,
        e.view.filters = [] := by
      intro e he
      rcases List.mem_map.mp he with ⟨vv, hvv, rfl⟩
      exact h0 vv (List.mem_of_mem_filter hvv)
    have h1 := checkLoop_all_empty (getPublicViewsRowChecker views updated).entries
      (getPublicViewsRowChecker views updated).cache row hall
    simp only [getPublicViewsWhereRowIsVisible]
    rw [h1]
  · intro vv hv hpub hkind hfe rows
    have hentry :
        ({ view := vv, cacheable := vv.filters.all (fun f => f.fieldId ∉ updated) }
            : CheckerEntry)
          ∈ (getPublicViewsRowChecker views updated).entries :=
      List.mem_map_of_mem _ (List.mem_filter.mpr ⟨hv, by simp [hpub, hkind]⟩)
    refine List.mem_map.mpr ⟨_, hentry, ?_⟩
    simp [hfe]

/-! ## Claim C8 -/

/-- C8: for every row and every state of the table's views, the row
checker's result lists never contain a view of a non-matching variant kind
(in particular never a Form view) nor a view that is not publicly shared,
regardless of the row's values or the views' filters — for both the
single-row and the batch form. -/
theorem claim_C8_checker_results_only_public_row_views
    (views : List View) (updated : List Nat) (row : Row) (rows : List Row) :
    (∀ vv, vv ∈ (getPublicViewsWhereRowIsVisible
        (getPublicViewsRowChecker views updated) row).1 →
      vv.public = true ∧ viewKindChecksRows vv.viewType = true ∧
        vv.viewType ≠ "form") ∧
    (∀ pr, pr ∈ getPublicViewsWhereRowsAreVisible
        (getPublicViewsRowChecker views updated) rows →
      pr.view.public = true ∧ viewKindChecksRows pr.view.viewType = true ∧
        pr.view.viewType ≠ "form") := by
  have hent : ∀ e ∈ (getPublicViewsRowChecker views updated).entries,
      e.view.public = true ∧ viewKindChecksRows e.view.viewType = true := by
    intro e he
    rcases List.mem_map.mp he with ⟨vv, hvv, rfl⟩
    have := (List.mem_filter.mp hvv).2
    exact ⟨(Bool.and_eq_true _ _ |>.mp this).1, (Bool.and_eq_true _ _ |>.mp this).2⟩
  have hform : ∀ t : String, viewKindChecksRows t = true → t ≠ "form" := by
    intro t ht heq
    rw [heq] at ht
    exact absurd ht (by decide)
  constructor
  · intro vv hvv
    rcases checkLoop_result_sub _ _ _ vv hvv with ⟨e, he, rfl⟩
    rcases hent e he with ⟨h1, h2⟩
    exact ⟨h1, h2, hform _ h2⟩
  · intro pr hpr
    rcases List.mem_map.mp hpr with ⟨e, he, rfl⟩
    have hview : (if e.view.filters.isEmpty
        then ({ view := e.view, allowedRowIds := .allRowsAllowed } : PublicViewRows)
        else { view := e.view,
               allowedRowIds := .ids ((rows.filter (viewPredicate e.view)).map
                 Row.id) }).view = e.view := by
      split <;> rfl
    rw [hview]
    rcases hent e he with ⟨h1, h2⟩
    exact ⟨h1, h2, hform _ h2⟩

/-- Witness for C2 at the tests' scenario: a checker told only field 2 will
change caches; a checker told the filtered field 1 will change does not. -/
theorem claim_C2_row_checker_caching_witness :
    (c2RowVisible'.id = c2RowVisible.id ∧
      (∀ vv ∈ [c2ViewA], ∀ f ∈ vv.filters, f.fieldId ∉ [2]) ∧
      (∀ vv ∈ [c2ViewA], vv.filters ≠ [] → ∃ f ∈ vv.filters, f.fieldId ∈ [1, 2])) ∧
    (getPublicViewsWhereRowIsVisible
        (getPublicViewsWhereRowIsVisible (getPublicViewsRowChecker [c2ViewA] [2])
          c2RowVisible).2.1 c2RowVisible'
      = ((getPublicViewsWhereRowIsVisible (getPublicViewsRowChecker [c2ViewA] [2])
            c2RowVisible).1,
         (getPublicViewsWhereRowIsVisible (getPublicViewsRowChecker [c2ViewA] [2])
            c2RowVisible).2.1, 0)) ∧
    (getPublicViewsWhereRowIsVisible (getPublicViewsRowChecker [c2ViewA] [1, 2])
        c2RowVisible
      = (((getPublicViewsRowChecker [c2ViewA] [1, 2]).entries.filter
            (fun e => viewPredicate e.view c2RowVisible)).map (fun e => e.view),
         getPublicViewsRowChecker [c2ViewA] [1, 2],
         ((getPublicViewsRowChecker [c2ViewA] [1, 2]).entries.filter
            (fun e => !e.view.filters.isEmpty)).length)) :=
  ⟨⟨rfl, by decide, by decide⟩,
    (claim_C2_row_checker_caching [c2ViewA] [c2ViewA] [2] [1, 2] c2RowVisible
      c2RowVisible' c2RowVisible rfl (by decide) (by decide)).1,
    (claim_C2_row_checker_caching [c2ViewA] [c2ViewA] [2] [1, 2] c2RowVisible
      c2RowVisible' c2RowVisible rfl (by decide) (by decide)).2⟩

/-- Witness for C7 at the test's scenario: the filterless public view is
always visible with zero queries, and the batch form returns the sentinel. -/
theorem claim_C7_filterless_views_always_visible_no_queries_witness :
    ((∀ vv ∈ [c7View], vv.filters = []) ∧
      c7View ∈ [c7View] ∧ c7View.public = true ∧
      viewKindChecksRows c7View.viewType = true ∧ c7View.filters = []) ∧
    (getPublicViewsWhereRowIsVisible (getPublicViewsRowChecker [c7View] [2]) c7Row
      = ((getPublicViewsRowChecker [c7View] [2]).entries.map (fun e => e.view),
         getPublicViewsRowChecker [c7View] [2], 0)) ∧
    ((⟨c7View, .allRowsAllowed⟩ : PublicViewRows) ∈
      getPublicViewsWhereRowsAreVisible (getPublicViewsRowChecker [c7View] [2])
        [c7Row]) :=
  ⟨⟨by decide, List.mem_singleton.mpr rfl, rfl, by decide, rfl⟩,
    (claim_C7_filterless_views_always_visible_no_queries [c7View] [2]).1
      (by decide) c7Row,
    (claim_C7_filterless_views_always_visible_no_queries [c7View] [2]).2 c7View
      (List.mem_singleton.mpr rfl) rfl (by decide) rfl [c7Row]⟩

/-- Witness for C8 at the scenario: the public grid view appears in a
result list, and the theorem yields that any result member is public and of
a row-checking kind (so never a form view). -/
theorem claim_C8_checker_results_only_public_row_views_witness :
    c8Grid ∈ (getPublicViewsWhereRowIsVisible
      (getPublicViewsRowChecker [c8Grid, c8Form, c8Private] [1]) c7Row).1 ∧
    (c8Grid.public = true ∧ viewKindChecksRows c8Grid.viewType = true ∧
      c8Grid.viewType ≠ "form") :=
  ⟨by decide,
    (claim_C8_checker_results_only_public_row_views [c8Grid, c8Form, c8Private] [1]
      c7Row [c7Row]).1 c8Grid (by decide)⟩

/-! ## Claim C9 -/

/-- C9: for every field referenced by existing ViewFilters and ViewSorts,
changing the field's type deletes exactly the dependent configuration that
became invalid: each ViewFilter on the field whose operator is incompatible
with the new type is deleted, each ViewSort on the field is deleted when the
new type does not support ordering, and all other filters and sorts are left
untouched. -/
theorem claim_C9_field_type_change_deletes_exactly_invalid_config
    (views : List View) (fieldId : Nat) (newType : String) (v : View)
    (hv : v ∈ views) :
    ∃ v' ∈ fieldTypeChanged views fieldId newType,
      v'.id = v.id ∧
      (∀ f : ViewFilter, f ∈ v'.filters ↔
        f ∈ v.filters ∧ (f.fieldId = fieldId → filterOpCompatible f.type newType = true)) ∧
      (∀ s : ViewSort, s ∈ v'.sorts ↔
        s ∈ v.sorts ∧ (s.fieldId = fieldId → fieldTypeOrderable newType = true)) := by
  refine ⟨_, List.mem_map_of_mem _ hv, rfl, ?_, ?_⟩
  · intro f
    rw [List.mem_filter]
    refine and_congr_right (fun _ => ?_)
    by_cases h : f.fieldId = fieldId <;> simp [h]
  · intro s
    rw [List.mem_filter]
    refine and_congr_right (fun _ => ?_)
    by_cases h : s.fieldId = fieldId <;> simp [h]

/-- Witness for C9 at the test's scenario: changing field 1 to `boolean`
keeps a view whose `contains` filter is gone (incompatible) while the sort
stays (`boolean` is orderable). -/
theorem claim_C9_field_type_change_deletes_exactly_invalid_config_witness :
    c9View ∈ [c9View] ∧
    (∃ v' ∈ fieldTypeChanged [c9View] 1 "boolean",
      v'.id = c9View.id ∧
      (∀ f : ViewFilter, f ∈ v'.filters ↔
        f ∈ c9View.filters ∧ (f.fieldId = 1 → filterOpCompatible f.type "boolean" = true)) ∧
      (∀ s : ViewSort, s ∈ v'.sorts ↔
        s ∈ c9View.sorts ∧ (s.fieldId = 1 → fieldTypeOrderable "boolean" = true))) :=
  ⟨List.mem_singleton.mpr rfl,
    claim_C9_field_type_change_deletes_exactly_invalid_config [c9View] 1 "boolean" c9View
      (List.mem_singleton.mpr rfl)⟩

/-! ## Claim C10 -/

theorem firstFreeSuffix_ge_two (existing : List String) (base : String) :
    2 ≤ firstFreeSuffix existing base := by
  unfold firstFreeSuffix
  cases hfind : (List.range' 2 (existing.length + 1)).find?
      (fun n => (base ++ " " ++ toString n) ∉ existing) with
  | none => simp
  | some k =>
      have hk := List.mem_of_find?_eq_some hfind
      rw [List.mem_range'_1] at hk
      simpa using hk.1

/-- C10: for every publicly shared view, `duplicate_view` deep-copies the
filters, sorts, decorations and field options, appends a numeric
disambiguator to the name and positions the duplicate right after the
source, but always resets public sharing: the duplicate's public flag is
false even though the source view is public. -/
theorem claim_C10_duplicate_view_resets_public_sharing (w : World) (viewId : Nat)
    (v : View) (hf : findView w viewId = some v) (_hp : v.public = true) :
    ∃ d, (duplicateView w viewId).snd = some d ∧
      d.public = false ∧
      d.filters = v.filters ∧ d.sorts = v.sorts ∧
      d.decorations = v.decorations ∧ d.fieldOptions = v.fieldOptions ∧
      (∃ k, 2 ≤ k ∧ d.name = v.name ++ " " ++ toString k) ∧
      d.order = v.order + 1 := by
  refine ⟨duplicatedView w v, ?_, rfl, rfl, rfl, rfl, rfl, ?_, rfl⟩
  · simp [duplicateView, hf]
  · exact ⟨firstFreeSuffix _ _, firstFreeSuffix_ge_two _ _, rfl⟩

/-- Witness for C10 at the concrete scenario world. -/
theorem claim_C10_duplicate_view_resets_public_sharing_witness :
    findView c10World 1 = some c10View ∧ c10View.public = true ∧
    (∃ d, (duplicateView c10World 1).snd = some d ∧
      d.public = false ∧
      d.filters = c10View.filters ∧ d.sorts = c10View.sorts ∧
      d.decorations = c10View.decorations ∧ d.fieldOptions = c10View.fieldOptions ∧
      (∃ k, 2 ≤ k ∧ d.name = c10View.name ++ " " ++ toString k) ∧
      d.order = c10View.order + 1) :=
  ⟨rfl, rfl, claim_C10_duplicate_view_resets_public_sharing c10World 1 c10View rfl rfl⟩

end ViewEngine
